import Mathlib

/-!
Shallow embedding of the DSA-Site backend core: the progress ledger
(UserProgress model and progress controllers), the authentication and
authorization middleware, the JWT duration parser, and the admin user
management controllers with their audit-log appends.

Each definition is translated from the TypeScript source under
`src/backend/src`; theorems check the specification claims against it.
-/

namespace DSASite

/-! ## Duration parser (auth.controller.ts, parseTimeToSeconds) -/

/-- Numeric value of a list of ASCII digit characters, most significant
first, as computed by parseInt with base 10. -/
def digitsToNat (cs : List Char) : Nat :=
  cs.foldl (fun acc c => acc * 10 + (c.toNat - '0'.toNat)) 0

/-- Model of the regex test in the TypeScript source:
the string matches the pattern of one-or-more digits followed by a single
unit character among d, h, m, s; on a match it yields the numeric value
and the unit character. -/
def timeMatch (s : String) : Option (Nat × Char) :=
  let cs := s.data
  match cs.getLast? with
  | none => none
  | some u =>
    let ds := cs.dropLast
    if ds ≠ [] ∧ ds.all Char.isDigit ∧ (u = 'd' ∨ u = 'h' ∨ u = 'm' ∨ u = 's')
    then some (digitsToNat ds, u)
    else none

/-- Model of `parseTimeToSeconds` from auth.controller.ts: converts a duration
string such as "7d" to seconds, defaulting to 7 days for any
non-matching input. -/
def parseTimeToSeconds (s : String) : Nat :=
  match timeMatch s with
  | none => 7 * 24 * 60 * 60
  | some (v, u) =>
    if u = 'd' then v * 24 * 60 * 60
    else if u = 'h' then v * 60 * 60
    else if u = 'm' then v * 60
    else if u = 's' then v
    else 7 * 24 * 60 * 60

/-- C6: the duration parser maps "7d" to 604800 seconds, "24h" to 86400,
"30m" to 1800, "45s" to 45, and every string not matching the
integer-plus-unit pattern (such as "abc") to the 7-day default 604800. -/
theorem parseTimeToSeconds_spec :
    parseTimeToSeconds "7d" = 604800 ∧
    parseTimeToSeconds "24h" = 86400 ∧
    parseTimeToSeconds "30m" = 1800 ∧
    parseTimeToSeconds "45s" = 45 ∧
    parseTimeToSeconds "abc" = 604800 ∧
    (∀ s, timeMatch s = none → parseTimeToSeconds s = 604800) := by
  refine ⟨by decide, by decide, by decide, by decide, by decide, ?_⟩
  intro s h
  simp [parseTimeToSeconds, h]

/-- Witness for C6: the universally quantified fallback clause applied at
the concrete unparseable input "abc". -/
theorem parseTimeToSeconds_spec_witness :
    timeMatch "abc" = none ∧ parseTimeToSeconds "abc" = 604800 :=
  ⟨by decide, parseTimeToSeconds_spec.2.2.2.2.2 "abc" (by decide)⟩

/-! ## Progress ledger (UserProgress.model.ts) -/

/-- Progress status enum from models.types: not_started or completed. -/
inductive ProgressStatus where
  | not_started
  | completed
deriving DecidableEq, Repr

/-- One UserProgress document: user reference, problem reference, status,
and the completedAt timestamp (none when not completed). -/
structure ProgressRecord where
  userId : String
  problemId : String
  status : ProgressStatus
  completedAt : Option Nat
deriving DecidableEq, Repr

/-- The UserProgress collection, as the list of its documents. -/
abbrev Ledger := List ProgressRecord

/-- The filter `{ userId, problemId }` used by every findOneAndUpdate in
UserProgress.model.ts. -/
def matchesKey (u p : String) (r : ProgressRecord) : Bool :=
  r.userId == u && r.problemId == p

/-- Number of documents in the collection matching a (userId, problemId)
filter. -/
def countKey (l : Ledger) (u p : String) : Nat :=
  (l.filter (matchesKey u p)).length

/-- Model of `findOneAndUpdate({userId, problemId}, {status, completedAt},
{upsert: true, new: true})`: updates the first matching document, or
inserts a fresh one when no document matches; returns the updated
document together with the new collection state. -/
def upsertProgress (l : Ledger) (u p : String) (st : ProgressStatus)
    (ca : Option Nat) : ProgressRecord × Ledger :=
  match l with
  | [] =>
    let r : ProgressRecord := ⟨u, p, st, ca⟩
    (r, [r])
  | r :: rest =>
    if matchesKey u p r then
      let r2 := { r with status := st, completedAt := ca }
      (r2, r2 :: rest)
    else
      let step := upsertProgress rest u p st ca
      (step.1, r :: step.2)

/-- Model of `findOneAndUpdate({userId, problemId}, {status, completedAt},
{new: true})` without upsert: updates the first matching document and
returns it, or returns none leaving the collection unchanged. -/
def updateNoUpsert (l : Ledger) (u p : String) (st : ProgressStatus)
    (ca : Option Nat) : Option ProgressRecord × Ledger :=
  match l with
  | [] => (none, [])
  | r :: rest =>
    if matchesKey u p r then
      let r2 := { r with status := st, completedAt := ca }
      (some r2, r2 :: rest)
    else
      let step := updateNoUpsert rest u p st ca
      (step.1, r :: step.2)

/-- Model of `UserProgress.markCompleted`: atomic upsert setting status=completed
and completedAt=now. -/
def markCompleted (l : Ledger) (u p : String) (now : Nat) :
    ProgressRecord × Ledger :=
  upsertProgress l u p .completed (some now)

/-- Model of `UserProgress.resetProgress`: findOneAndUpdate to not_started with
completedAt cleared, without upsert; none when no record exists. -/
def resetProgress (l : Ledger) (u p : String) :
    Option ProgressRecord × Ledger :=
  updateNoUpsert l u p .not_started none

/-- The write performed by updateProgress and by each entry of
batchUpdateProgress in problem.controller.ts: completed goes through
markCompleted, any other status through an upsert that clears
completedAt. -/
def applyStatusWrite (l : Ledger) (u p : String) (st : ProgressStatus)
    (now : Nat) : ProgressRecord × Ledger :=
  match st with
  | .completed => markCompleted l u p now
  | _ => upsertProgress l u p st none

/-! ### Counting lemmas about the upsert primitives -/

theorem countKey_cons (r : ProgressRecord) (l : Ledger) (u p : String) :
    countKey (r :: l) u p =
      (if matchesKey u p r then 1 else 0) + countKey l u p := by
  by_cases h : matchesKey u p r
  · simp [countKey, List.filter_cons, h, Nat.add_comm]
  · simp [countKey, List.filter_cons, h]

theorem matchesKey_update (u p : String) (r : ProgressRecord)
    (st : ProgressStatus) (ca : Option Nat) :
    matchesKey u p { r with status := st, completedAt := ca } =
      matchesKey u p r := rfl

theorem matchesKey_self (u p : String) (st : ProgressStatus)
    (ca : Option Nat) :
    matchesKey u p ⟨u, p, st, ca⟩ = true := by
  simp [matchesKey]

/-- The document returned by the upsert carries exactly the filter key and
the written fields. -/
theorem upsertProgress_fst (l : Ledger) (u p : String) (st : ProgressStatus)
    (ca : Option Nat) :
    (upsertProgress l u p st ca).1.userId = u ∧
    (upsertProgress l u p st ca).1.problemId = p ∧
    (upsertProgress l u p st ca).1.status = st ∧
    (upsertProgress l u p st ca).1.completedAt = ca := by
  induction l with
  | nil => exact ⟨rfl, rfl, rfl, rfl⟩
  | cons r rest ih =>
    simp only [upsertProgress]
    split
    · rename_i h
      simp only [matchesKey, Bool.and_eq_true, beq_iff_eq] at h
      exact ⟨h.1, h.2, rfl, rfl⟩
    · exact ih

/-- Upserting a key leaves exactly max(previous count, 1) documents for
that key: it inserts only when nothing matched, and otherwise rewrites
the first match in place. -/
theorem countKey_upsert_self (l : Ledger) (u p : String)
    (st : ProgressStatus) (ca : Option Nat) :
    countKey (upsertProgress l u p st ca).2 u p =
      max (countKey l u p) 1 := by
  induction l with
  | nil => simp [upsertProgress, countKey_cons, matchesKey_self, countKey]
  | cons r rest ih =>
    by_cases h : matchesKey u p r
    · simp only [upsertProgress, if_pos h]
      simp only [countKey_cons, matchesKey_update, h, if_pos]
      have h1 : 1 ≤ 1 + countKey rest u p := Nat.le_add_right 1 _
      simp [Nat.max_eq_left h1]
    · simp only [upsertProgress, if_neg h]
      simp [countKey_cons, h, ih]

/-- An upsert for a different (userId, problemId) key never changes the
number of documents for this key. -/
theorem countKey_upsert_other (l : Ledger) (u p u2 p2 : String)
    (st : ProgressStatus) (ca : Option Nat) (h : ¬(u2 = u ∧ p2 = p)) :
    countKey (upsertProgress l u2 p2 st ca).2 u p = countKey l u p := by
  induction l with
  | nil =>
    have hm : matchesKey u p ⟨u2, p2, st, ca⟩ = false := by
      simp [matchesKey]
      intro h1 h2
      exact absurd ⟨h1, h2⟩ h
    simp [upsertProgress, countKey_cons, hm, countKey]
  | cons r rest ih =>
    by_cases hr : matchesKey u2 p2 r
    · simp only [upsertProgress, if_pos hr]
      simp [countKey_cons, matchesKey_update]
    · simp only [upsertProgress, if_neg hr]
      simp [countKey_cons, ih]

/-- A findOneAndUpdate without upsert never changes the number of
documents for any key. -/
theorem countKey_noUpsert (l : Ledger) (u p u2 p2 : String)
    (st : ProgressStatus) (ca : Option Nat) :
    countKey (updateNoUpsert l u2 p2 st ca).2 u p = countKey l u p := by
  induction l with
  | nil => simp [updateNoUpsert]
  | cons r rest ih =>
    by_cases hr : matchesKey u2 p2 r
    · simp only [updateNoUpsert, if_pos hr]
      simp [countKey_cons, matchesKey_update]
    · simp only [updateNoUpsert, if_neg hr]
      simp [countKey_cons, ih]

/-- With no matching document, a non-upsert findOneAndUpdate returns none
and leaves the collection untouched. -/
theorem updateNoUpsert_of_zero (l : Ledger) (u p : String)
    (st : ProgressStatus) (ca : Option Nat) (h : countKey l u p = 0) :
    updateNoUpsert l u p st ca = (none, l) := by
  induction l with
  | nil => simp [updateNoUpsert]
  | cons r rest ih =>
    rw [countKey_cons] at h
    by_cases hr : matchesKey u p r
    · simp [hr] at h
    · have hrest : countKey rest u p = 0 := by
        simp [hr] at h
        exact h
      simp [updateNoUpsert, hr, ih hrest]

/-- When a document already matches, the upsert rewrites it in place and
the collection size is unchanged. -/
theorem upsert_length_of_pos (l : Ledger) (u p : String)
    (st : ProgressStatus) (ca : Option Nat) (h : countKey l u p ≠ 0) :
    (upsertProgress l u p st ca).2.length = l.length := by
  induction l with
  | nil => simp [countKey] at h
  | cons r rest ih =>
    by_cases hr : matchesKey u p r
    · simp [upsertProgress, hr]
    · rw [countKey_cons, if_neg hr] at h
      simp only [Nat.zero_add] at h
      simp [upsertProgress, hr, ih h]

/-! ## Content catalog (Problem model) and progress controllers
(problem.controller.ts) -/

/-- The part of a Problem document the progress controllers consult:
its identifier and active flag. -/
structure Problem where
  id : String
  isActive : Bool
deriving DecidableEq, Repr

/-- The Problem collection. -/
abbrev Catalog := List Problem

/-- Model of `Problem.findById(problemId)` followed by the
`!problem || !problem.isActive` guard: true iff an active problem with
this identifier exists. -/
def problemActive (catalog : Catalog) (p : String) : Bool :=
  match catalog.find? (fun pr => pr.id == p) with
  | none => false
  | some pr => pr.isActive

/-- The batch existence check of batchUpdateProgress:
`Problem.find({_id: {$in: problemIds}, isActive: true})` returns the
active documents whose identifier appears in the request, and the batch
passes iff as many documents were found as identifiers were sent. -/
def foundProblems (catalog : Catalog) (ids : List String) : List Problem :=
  catalog.filter (fun pr => pr.isActive && ids.contains pr.id)

/-- The mutation loop of batchUpdateProgress, one upsert per entry. -/
def batchApply (l : Ledger) (u : String)
    (updates : List (String × ProgressStatus)) (now : Nat) : Ledger :=
  updates.foldl (fun acc up => (applyStatusWrite acc u up.1 up.2 now).2) l

/-- One progress-mutating request, as dispatched by the controllers:
markComplete, updateProgress, resetProgress, batchUpdateProgress. Each
operation carries the catalog it was checked against. -/
inductive LedgerOp where
  | markOp (catalog : Catalog) (u p : String) (now : Nat)
  | setStatusOp (catalog : Catalog) (u p : String) (st : ProgressStatus)
      (now : Nat)
  | resetOp (u p : String)
  | batchOp (catalog : Catalog) (u : String)
      (updates : List (String × ProgressStatus)) (now : Nat)

/-- Effect of one controller call on the UserProgress collection:
markComplete and updateProgress mutate only when the problem exists and
is active; resetProgress never consults the catalog; batchUpdateProgress
mutates only when the existence check passes, and then applies every
entry. -/
def applyOp (l : Ledger) : LedgerOp → Ledger
  | .markOp catalog u p now =>
    if problemActive catalog p then (markCompleted l u p now).2 else l
  | .setStatusOp catalog u p st now =>
    if problemActive catalog p then (applyStatusWrite l u p st now).2 else l
  | .resetOp u p => (resetProgress l u p).2
  | .batchOp catalog u updates now =>
    if (foundProblems catalog (updates.map Prod.fst)).length =
        (updates.map Prod.fst).length
    then batchApply l u updates now else l

/-! ### C1: uniqueness of the Progress Record per (account, problem) -/

theorem countKey_upsert_le (l : Ledger) (u p u2 p2 : String)
    (st : ProgressStatus) (ca : Option Nat) (h : countKey l u p ≤ 1) :
    countKey (upsertProgress l u2 p2 st ca).2 u p ≤ 1 := by
  by_cases hk : u2 = u ∧ p2 = p
  · rcases hk with ⟨h1, h2⟩
    subst h1; subst h2
    rw [countKey_upsert_self]
    omega
  · rw [countKey_upsert_other l u p u2 p2 st ca hk]
    exact h

theorem countKey_statusWrite_le (l : Ledger) (u p u2 p2 : String)
    (st : ProgressStatus) (now : Nat) (h : countKey l u p ≤ 1) :
    countKey (applyStatusWrite l u2 p2 st now).2 u p ≤ 1 := by
  cases st with
  | completed => exact countKey_upsert_le l u p u2 p2 _ _ h
  | not_started => exact countKey_upsert_le l u p u2 p2 _ _ h

theorem countKey_batchApply_le (updates : List (String × ProgressStatus))
    (l : Ledger) (u p u2 : String) (now : Nat) (h : countKey l u p ≤ 1) :
    countKey (batchApply l u2 updates now) u p ≤ 1 := by
  induction updates generalizing l with
  | nil => exact h
  | cons up rest ih =>
    exact ih _ (countKey_statusWrite_le l u p u2 up.1 up.2 now h)

/-- Each single controller call preserves the at-most-one-record bound
for every (account, problem) pair. -/
theorem countKey_applyOp_le (l : Ledger) (op : LedgerOp) (u p : String)
    (h : countKey l u p ≤ 1) : countKey (applyOp l op) u p ≤ 1 := by
  cases op with
  | markOp catalog u2 p2 now =>
    simp only [applyOp]
    split
    · exact countKey_upsert_le l u p u2 p2 _ _ h
    · exact h
  | setStatusOp catalog u2 p2 st now =>
    simp only [applyOp]
    split
    · exact countKey_statusWrite_le l u p u2 p2 st now h
    · exact h
  | resetOp u2 p2 =>
    simp only [applyOp, resetProgress]
    rw [countKey_noUpsert]
    exact h
  | batchOp catalog u2 updates now =>
    simp only [applyOp]
    split
    · exact countKey_batchApply_le updates l u p u2 now h
    · exact h

/-- C1: starting from a ledger holding no record for an (account, problem)
pair, any finite sequence of mark-complete, update-status, reset and
batch-update controller calls leaves at most one Progress Record for that
pair. -/
theorem progress_record_uniqueness (l0 : Ledger) (u p : String)
    (ops : List LedgerOp) (h0 : countKey l0 u p = 0) :
    countKey (ops.foldl applyOp l0) u p ≤ 1 := by
  have main : ∀ (ops : List LedgerOp) (l : Ledger), countKey l u p ≤ 1 →
      countKey (ops.foldl applyOp l) u p ≤ 1 := by
    intro ops
    induction ops with
    | nil => intro l h; exact h
    | cons op rest ih =>
      intro l h
      exact ih (applyOp l op) (countKey_applyOp_le l op u p h)
  exact main ops l0 (by omega)

/-- Witness for C1 at a concrete ledger and operation sequence: an empty
ledger, then mark-complete, reset, batch-update and mark-complete again
for the same pair, against a catalog where the problem is active. -/
theorem progress_record_uniqueness_witness :
    countKey [] "u1" "p1" = 0 ∧
    countKey ([LedgerOp.markOp [⟨"p1", true⟩] "u1" "p1" 3,
      LedgerOp.resetOp "u1" "p1",
      LedgerOp.batchOp [⟨"p1", true⟩] "u1" [("p1", .completed)] 7,
      LedgerOp.markOp [⟨"p1", true⟩] "u1" "p1" 9].foldl applyOp [])
      "u1" "p1" ≤ 1 :=
  ⟨by decide, progress_record_uniqueness [] "u1" "p1" _ (by decide)⟩

/-! ### C3: idempotence of mark-complete -/

/-- C3: two immediately successive markCompleted calls for the same
(account, problem) pair return a record with status completed each time,
both returned records carry the same storage key (userId, problemId) =
(u, p), the second call adds no document, and exactly one record for the
pair remains. -/
theorem markCompleted_idempotent (l : Ledger) (u p : String) (t1 t2 : Nat)
    (h : countKey l u p ≤ 1) :
    (markCompleted l u p t1).1.status = .completed ∧
    (markCompleted (markCompleted l u p t1).2 u p t2).1.status =
      .completed ∧
    (markCompleted l u p t1).1.userId = u ∧
    (markCompleted l u p t1).1.problemId = p ∧
    (markCompleted (markCompleted l u p t1).2 u p t2).1.userId = u ∧
    (markCompleted (markCompleted l u p t1).2 u p t2).1.problemId = p ∧
    (markCompleted (markCompleted l u p t1).2 u p t2).2.length =
      (markCompleted l u p t1).2.length ∧
    countKey (markCompleted (markCompleted l u p t1).2 u p t2).2 u p = 1 := by
  have f1 := upsertProgress_fst l u p .completed (some t1)
  have f2 := upsertProgress_fst (markCompleted l u p t1).2 u p .completed
    (some t2)
  have c1 : countKey (markCompleted l u p t1).2 u p =
      max (countKey l u p) 1 := countKey_upsert_self l u p _ _
  have c1pos : countKey (markCompleted l u p t1).2 u p ≠ 0 := by
    rw [c1]; omega
  have hlen : (markCompleted (markCompleted l u p t1).2 u p t2).2.length =
      (markCompleted l u p t1).2.length :=
    upsert_length_of_pos _ u p _ _ c1pos
  have c2 : countKey (markCompleted (markCompleted l u p t1).2 u p t2).2
      u p = max (countKey (markCompleted l u p t1).2 u p) 1 :=
    countKey_upsert_self _ u p _ _
  refine ⟨f1.2.2.1, f2.2.2.1, f1.1, f1.2.1, f2.1, f2.2.1, hlen, ?_⟩
  rw [c2, c1]
  omega

/-- Witness for C3 at a concrete pair on the empty ledger. -/
theorem markCompleted_idempotent_witness :
    countKey [] "u1" "p1" ≤ 1 ∧
    countKey (markCompleted (markCompleted [] "u1" "p1" 3).2
      "u1" "p1" 5).2 "u1" "p1" = 1 :=
  ⟨by decide,
    (markCompleted_idempotent [] "u1" "p1" 3 5 (by decide)).2.2.2.2.2.2.2⟩

/-! ### Controllers: outcomes of progress endpoints -/

/-- Response outcome of a controller call: HTTP status plus message,
split by whether the handler threw an ApiError. -/
inductive Outcome where
  | success (status : Nat) (msg : String)
  | failure (status : Nat) (msg : String)
deriving DecidableEq, Repr

/-- Model of `markComplete` from problem.controller.ts: verify the problem exists
and is active (else 404 "Problem not found"), then markCompleted and
respond 200. -/
def markCompleteController (catalog : Catalog) (l : Ledger) (u p : String)
    (now : Nat) : Outcome × Ledger :=
  if problemActive catalog p then
    (.success 200 "Problem marked as completed", (markCompleted l u p now).2)
  else
    (.failure 404 "Problem not found", l)

/-- Model of `resetProgress` from problem.controller.ts: calls the model's
resetProgress directly (no catalog check); a missing record yields the
distinguished 200 response "No progress to reset". -/
def resetProgressController (l : Ledger) (u p : String) :
    Outcome × Ledger :=
  match resetProgress l u p with
  | (none, l2) => (.success 200 "No progress to reset", l2)
  | (some _, l2) => (.success 200 "Progress reset successfully", l2)

/-- Model of `batchUpdateProgress` from problem.controller.ts: find the active
problems among the referenced identifiers; when fewer documents come back
than identifiers were sent, reject with 400 before any mutation;
otherwise run every upsert and respond 200. -/
def batchUpdateProgressController (catalog : Catalog) (l : Ledger)
    (u : String) (updates : List (String × ProgressStatus)) (now : Nat) :
    Outcome × Ledger :=
  let ids := updates.map Prod.fst
  if (foundProblems catalog ids).length ≠ ids.length then
    (.failure 400 "One or more problems not found", l)
  else
    (.success 200
      ("Updated progress for " ++ toString updates.length ++ " problems"),
      batchApply l u updates now)

/-! ### C4: reset tolerance -/

/-- C4: resetting a pair with no Progress Record responds with the
distinguished 200 "No progress to reset" success outcome and leaves the
ledger exactly as it was: no record is created. -/
theorem reset_tolerance (l : Ledger) (u p : String)
    (h : countKey l u p = 0) :
    resetProgressController l u p =
      (.success 200 "No progress to reset", l) := by
  unfold resetProgressController
  rw [show resetProgress l u p = (none, l) from
    updateNoUpsert_of_zero l u p .not_started none h]

/-- Witness for C4 on the empty ledger. -/
theorem reset_tolerance_witness :
    countKey [] "u1" "p1" = 0 ∧
    resetProgressController [] "u1" "p1" =
      (.success 200 "No progress to reset", []) :=
  ⟨by decide, reset_tolerance [] "u1" "p1" (by decide)⟩

/-! ### C5: batch precondition -/

/-- With distinct problem identifiers in the catalog, the existence check
finds strictly fewer documents than identifiers whenever one referenced
identifier has no active problem. -/
theorem foundProblems_short (catalog : Catalog) (ids : List String)
    (i0 : String) (hnodup : (catalog.map Problem.id).Nodup)
    (hmem : i0 ∈ ids)
    (hbad : ∀ pr ∈ catalog, pr.id = i0 → pr.isActive = false) :
    (foundProblems catalog ids).length < ids.length := by
  have hsub : List.Sublist (foundProblems catalog ids) catalog :=
    List.filter_sublist catalog
  have hn : ((foundProblems catalog ids).map Problem.id).Nodup :=
    List.Nodup.sublist (List.Sublist.map Problem.id hsub) hnodup
  have hss : ((foundProblems catalog ids).map Problem.id).toFinset ⊆
      ids.toFinset.erase i0 := by
    intro x hx
    rw [List.mem_toFinset] at hx
    obtain ⟨pr, hpr, rfl⟩ := List.mem_map.mp hx
    have hflt := List.mem_filter.mp hpr
    have hcat : pr ∈ catalog := hflt.1
    have hcond := hflt.2
    rw [Bool.and_eq_true] at hcond
    have hact : pr.isActive = true := hcond.1
    have hin : pr.id ∈ ids := by
      have := hcond.2
      simpa using this
    rw [Finset.mem_erase]
    refine ⟨?_, List.mem_toFinset.mpr hin⟩
    intro hEq
    have := hbad pr hcat hEq
    rw [this] at hact
    exact Bool.false_ne_true hact
  have step1 : (foundProblems catalog ids).length =
      ((foundProblems catalog ids).map Problem.id).toFinset.card := by
    rw [List.toFinset_card_of_nodup hn, List.length_map]
  have step2 : ((foundProblems catalog ids).map Problem.id).toFinset.card ≤
      (ids.toFinset.erase i0).card := Finset.card_le_card hss
  have step3 : (ids.toFinset.erase i0).card = ids.toFinset.card - 1 :=
    Finset.card_erase_of_mem (List.mem_toFinset.mpr hmem)
  have hpos : 0 < ids.toFinset.card :=
    Finset.card_pos.mpr ⟨i0, List.mem_toFinset.mpr hmem⟩
  have step4 : ids.toFinset.card ≤ ids.length := List.toFinset_card_le ids
  omega

/-- C5: a batch-update referencing at least one identifier with no
existing active problem is rejected with the 400 error before any
mutation; the ledger is returned unchanged. Requires only the store
invariant that problem identifiers are unique in the catalog. -/
theorem batch_precondition (catalog : Catalog) (l : Ledger) (u : String)
    (updates : List (String × ProgressStatus)) (now : Nat) (i0 : String)
    (hnodup : (catalog.map Problem.id).Nodup)
    (hmem : i0 ∈ updates.map Prod.fst)
    (hbad : ∀ pr ∈ catalog, pr.id = i0 → pr.isActive = false) :
    batchUpdateProgressController catalog l u updates now =
      (.failure 400 "One or more problems not found", l) := by
  have hlt := foundProblems_short catalog (updates.map Prod.fst) i0
    hnodup hmem hbad
  unfold batchUpdateProgressController
  have hne : ¬(foundProblems catalog (updates.map Prod.fst)).length =
      updates.length := by
    simpa using Nat.ne_of_lt hlt
  simp [hne]

/-- Witness for C5: a two-entry batch where "p2" names no catalog
problem, on a concrete ledger already holding a record, is rejected and
the ledger is unchanged. -/
theorem batch_precondition_witness :
    (([⟨"p1", true⟩] : Catalog).map Problem.id).Nodup ∧
    batchUpdateProgressController [⟨"p1", true⟩]
      [⟨"u1", "p1", .completed, some 2⟩] "u1"
      [("p1", .not_started), ("p2", .completed)] 9 =
      (.failure 400 "One or more problems not found",
        [⟨"u1", "p1", .completed, some 2⟩]) :=
  ⟨by decide,
    batch_precondition [⟨"p1", true⟩] [⟨"u1", "p1", .completed, some 2⟩]
      "u1" [("p1", .not_started), ("p2", .completed)] 9 "p2"
      (by decide) (by decide) (by decide)⟩

/-! ### C9: refusing retired problems -/

/-- Counterexample to C9 as stated: with an empty catalog (so problem
"p1" is retired/nonexistent), the reset controller neither rejects nor
leaves the ledger unchanged — it responds 200 and rewrites the existing
record to not_started. -/
theorem reset_retired_counterexample :
    problemActive [] "p1" = false ∧
    resetProgressController [⟨"u1", "p1", .completed, some 5⟩] "u1" "p1" =
      (.success 200 "Progress reset successfully",
        [⟨"u1", "p1", .not_started, none⟩]) := by
  decide

/-- C9 amended: markComplete refuses any identifier without an existing
active problem (404, ledger untouched), but resetProgress performs no
catalog check at all: it always responds with a 200 success outcome. -/
theorem retired_problem_guard (catalog : Catalog) (l : Ledger)
    (u p : String) (now : Nat) (h : problemActive catalog p = false) :
    markCompleteController catalog l u p now =
      (.failure 404 "Problem not found", l) ∧
    ((resetProgressController l u p).1 =
      Outcome.success 200 "No progress to reset" ∨
     (resetProgressController l u p).1 =
      Outcome.success 200 "Progress reset successfully") := by
  constructor
  · unfold markCompleteController
    simp [h]
  · unfold resetProgressController
    rcases hr : resetProgress l u p with ⟨o, l2⟩
    cases o <;> simp

/-- Witness for the amended C9 at a concrete retired problem. -/
theorem retired_problem_guard_witness :
    problemActive [] "p1" = false ∧
    markCompleteController [] [⟨"u1", "p1", .completed, some 5⟩]
      "u1" "p1" 9 =
      (.failure 404 "Problem not found",
        [⟨"u1", "p1", .completed, some 5⟩]) :=
  ⟨by decide,
    (retired_problem_guard [] [⟨"u1", "p1", .completed, some 5⟩]
      "u1" "p1" 9 (by decide)).1⟩

/-! ## Credential store, tokens and the authorization gate
(auth.middleware.ts, admin.middleware.ts) -/

/-- User roles from models.types. -/
inductive UserRole where
  | user
  | admin
deriving DecidableEq, Repr

/-- The part of a User document the gate consults. -/
structure User where
  id : String
  email : String
  role : UserRole
  isActive : Bool
deriving DecidableEq, Repr

/-- The User collection. -/
abbrev UserStore := List User

/-- Model of `User.findById`. -/
def findById (db : UserStore) (i : String) : Option User :=
  db.find? (fun u => u.id == i)

/-- JWT payload fields from models.types plus the exp claim jwt adds. -/
structure JwtPayload where
  userId : String
  email : String
  role : UserRole
  exp : Nat
deriving DecidableEq, Repr

/-- A signed token: payload plus the secret it was signed with. The HMAC
signature is modelled by its defining property: verification against a
secret succeeds exactly when the token was produced under that same
secret, so any payload tampering leaves a token signed under an unknown
secret. -/
structure Token where
  payload : JwtPayload
  signedWith : String
deriving DecidableEq, Repr

/-- Result of jwt.verify. -/
inductive VerifyResult where
  | valid (p : JwtPayload)
  | expired
  | malformed
deriving DecidableEq, Repr

/-- jwt.verify: signature integrity first, then the exp claim (expired
exactly when the current time has reached exp). -/
def verifyToken (secret : String) (now : Nat) (t : Token) : VerifyResult :=
  if t.signedWith ≠ secret then .malformed
  else if t.payload.exp ≤ now then .expired
  else .valid t.payload

/-- The states of the Authorization header seen by the middleware:
absent, present without the Bearer prefix, "Bearer" with an empty token
part, or carrying a token. -/
inductive Credential where
  | missing
  | malformedHeader (h : String)
  | emptyBearer
  | bearer (t : Token)

/-- Result of a middleware pipeline: the attached user, or a rejection
with HTTP status and message. -/
inductive AuthResult where
  | ok (u : User)
  | err (status : Nat) (msg : String)
deriving DecidableEq, Repr

/-- Model of `authMiddleware` from auth.middleware.ts: extract the bearer
credential, verify the token, re-fetch the account from the store, check
the active flag, and attach the fresh user document. Every rejection is
a 401 with its own message. -/
def authMiddleware (db : UserStore) (secret : String) (now : Nat) :
    Credential → AuthResult
  | .missing =>
    .err 401 "Authentication required. Please provide a valid token."
  | .malformedHeader _ =>
    .err 401 "Authentication required. Please provide a valid token."
  | .emptyBearer => .err 401 "Authentication token is missing."
  | .bearer t =>
    match verifyToken secret now t with
    | .expired => .err 401 "Token has expired. Please login again."
    | .malformed => .err 401 "Invalid token. Please login again."
    | .valid pl =>
      match findById db pl.userId with
      | none => .err 401 "User no longer exists. Please register again."
      | some u =>
        if u.isActive then .ok u
        else .err 401
          "Your account has been deactivated. Please contact support."

/-- authMiddleware followed by adminMiddleware, as wired by requireAdmin:
the role check runs on the freshly fetched user document, never on the
token payload. -/
def adminPipeline (db : UserStore) (secret : String) (now : Nat)
    (cred : Credential) : AuthResult :=
  match authMiddleware db secret now cred with
  | .err s m => .err s m
  | .ok u =>
    if u.role ≠ UserRole.admin then
      .err 403 "Access denied. Administrator privileges required."
    else .ok u

/-! ### C2: role re-derivation after demotion -/

/-- C2: after a demotion in the store, a still-unexpired, validly signed
token whose embedded role is admin is rejected by any admin endpoint with
the 403 Forbidden outcome, never any 401 Unauthorized outcome: the gate
compares the freshly fetched role, not the role in the token. -/
theorem role_rederivation (db : UserStore) (secret : String) (now : Nat)
    (t : Token) (u : User)
    (hembed : t.payload.role = UserRole.admin)
    (hsig : t.signedWith = secret) (hexp : now < t.payload.exp)
    (hfind : findById db t.payload.userId = some u)
    (hrole : u.role = UserRole.user) (hactive : u.isActive = true) :
    adminPipeline db secret now (.bearer t) =
      .err 403 "Access denied. Administrator privileges required." ∧
    ∀ m, adminPipeline db secret now (.bearer t) ≠ .err 401 m := by
  have hver : verifyToken secret now t = .valid t.payload := by
    unfold verifyToken
    rw [hsig]
    simp [Nat.not_le.mpr hexp]
  have hauth : authMiddleware db secret now (.bearer t) = .ok u := by
    simp [authMiddleware, hver, hfind, hactive]
  have hmain : adminPipeline db secret now (.bearer t) =
      .err 403 "Access denied. Administrator privileges required." := by
    unfold adminPipeline
    rw [hauth]
    simp [hrole]
  refine ⟨hmain, ?_⟩
  intro m hcontra
  rw [hmain] at hcontra
  simp at hcontra

/-- Witness for C2: a concrete store where the account was demoted to
user, and a concrete unexpired token embedding the admin role. -/
theorem role_rederivation_witness :
    (⟨⟨"a1", "a@x", UserRole.admin, 100⟩, "sec"⟩ : Token).payload.role =
      UserRole.admin ∧
    adminPipeline [⟨"a1", "a@x", UserRole.user, true⟩] "sec" 10
      (.bearer ⟨⟨"a1", "a@x", UserRole.admin, 100⟩, "sec"⟩) =
      .err 403 "Access denied. Administrator privileges required." :=
  ⟨by decide,
    (role_rederivation [⟨"a1", "a@x", UserRole.user, true⟩] "sec" 10
      ⟨⟨"a1", "a@x", UserRole.admin, 100⟩, "sec"⟩
      ⟨"a1", "a@x", UserRole.user, true⟩
      (by decide) (by decide) (by decide) (by decide) (by decide)
      (by decide)).1⟩

/-! ### C8: authentication failure messages -/

/-- Counterexample to C8 as stated: the credential-absent, expired and
malformed sub-kinds each carry their own distinct user-visible message,
so the message does reveal which failure mode occurred. -/
theorem auth_message_counterexample :
    authMiddleware [] "sec" 10 .missing =
      .err 401 "Authentication required. Please provide a valid token." ∧
    authMiddleware [] "sec" 10
      (.bearer ⟨⟨"u1", "e@x", UserRole.user, 5⟩, "sec"⟩) =
      .err 401 "Token has expired. Please login again." ∧
    authMiddleware [] "sec" 10
      (.bearer ⟨⟨"u1", "e@x", UserRole.user, 20⟩, "bad"⟩) =
      .err 401 "Invalid token. Please login again." ∧
    ("Token has expired. Please login again." : String) ≠
      "Invalid token. Please login again." ∧
    ("Authentication required. Please provide a valid token." : String) ≠
      "Token has expired. Please login again." := by
  decide

/-- C8 amended: every authentication failure of the gate shares the one
401 Unauthorized class — no failing request is distinguishable by status
code — but the messages differ per sub-kind (absent vs malformed vs
expired), as the counterexample shows at concrete inputs. -/
theorem auth_failure_uniform_status (db : UserStore) (secret : String)
    (now : Nat) (cred : Credential) (s : Nat) (m : String)
    (h : authMiddleware db secret now cred = .err s m) : s = 401 := by
  cases cred with
  | missing =>
    simp only [authMiddleware] at h
    cases h
    rfl
  | malformedHeader x =>
    simp only [authMiddleware] at h
    cases h
    rfl
  | emptyBearer =>
    simp only [authMiddleware] at h
    cases h
    rfl
  | bearer t =>
    simp only [authMiddleware] at h
    split at h
    · cases h; rfl
    · cases h; rfl
    · split at h
      · cases h; rfl
      · split at h
        · simp at h
        · cases h; rfl

/-- Witness for the amended C8: the status of the expired-token rejection
at a concrete input is 401. -/
theorem auth_failure_uniform_status_witness :
    authMiddleware [] "sec" 10
      (.bearer ⟨⟨"u1", "e@x", UserRole.user, 5⟩, "sec"⟩) =
      .err 401 "Token has expired. Please login again." ∧ 401 = 401 :=
  ⟨by decide,
    auth_failure_uniform_status [] "sec" 10
      (.bearer ⟨⟨"u1", "e@x", UserRole.user, 5⟩, "sec"⟩) 401
      "Token has expired. Please login again." (by decide)⟩

/-! ## Admin user management and the audit log
(user.controller.ts, AdminLog.logAction) -/

/-- Admin action kinds for user management, from AdminActionType. -/
inductive AdminAction where
  | promote_user
  | demote_user
  | deactivate_user
  | activate_user
deriving DecidableEq, Repr

/-- One AdminLog document, restricted to the fields the claims need. -/
structure AuditEntry where
  adminId : String
  actionType : AdminAction
  entityId : String
deriving DecidableEq, Repr

/-- Model of `user.role = r; await user.save()` on the document found by id. -/
def setRole (db : UserStore) (i : String) (r : UserRole) : UserStore :=
  db.map (fun u => if u.id == i then { u with role := r } else u)

/-- Model of `user.isActive = b; await user.save()` on the document found by id. -/
def setActive (db : UserStore) (i : String) (b : Bool) : UserStore :=
  db.map (fun u => if u.id == i then { u with isActive := b } else u)

/-- Model of `promoteUser` from user.controller.ts. The audit append
(AdminLog.logAction, a plain create with no error handling) is modelled
by the auditOk flag: when the append fails, the awaited promise rejects
after the role was already saved, asyncHandler forwards the error, and
the error middleware answers 500; no entry is stored. -/
def promoteUser (db : UserStore) (audit : List AuditEntry) (auditOk : Bool)
    (adminId targetId : String) :
    Outcome × UserStore × List AuditEntry :=
  match findById db targetId with
  | none => (.failure 404 "User not found", db, audit)
  | some u =>
    if u.role = UserRole.admin then
      (.failure 400 "User is already an admin", db, audit)
    else
      let db2 := setRole db targetId UserRole.admin
      if auditOk then
        (.success 200 "User promoted to admin successfully", db2,
          audit ++ [⟨adminId, .promote_user, targetId⟩])
      else
        (.failure 500 "Internal server error", db2, audit)

/-- Model of `demoteUser` from user.controller.ts: not-found check, already-a-user
check, self-demotion guard, then save and audit. -/
def demoteUser (db : UserStore) (audit : List AuditEntry) (auditOk : Bool)
    (adminId targetId : String) :
    Outcome × UserStore × List AuditEntry :=
  match findById db targetId with
  | none => (.failure 404 "User not found", db, audit)
  | some u =>
    if u.role = UserRole.user then
      (.failure 400 "User is already a regular user", db, audit)
    else if u.id == adminId then
      (.failure 400 "You cannot demote yourself", db, audit)
    else
      let db2 := setRole db targetId UserRole.user
      if auditOk then
        (.success 200 "User demoted to regular user successfully", db2,
          audit ++ [⟨adminId, .demote_user, targetId⟩])
      else
        (.failure 500 "Internal server error", db2, audit)

/-- Model of `deactivateUser` from user.controller.ts: not-found check,
self-deactivation guard, already-deactivated check, then save and
audit. -/
def deactivateUser (db : UserStore) (audit : List AuditEntry)
    (auditOk : Bool) (adminId targetId : String) :
    Outcome × UserStore × List AuditEntry :=
  match findById db targetId with
  | none => (.failure 404 "User not found", db, audit)
  | some u =>
    if u.id == adminId then
      (.failure 400 "You cannot deactivate your own account", db, audit)
    else if u.isActive = false then
      (.failure 400 "User is already deactivated", db, audit)
    else
      let db2 := setActive db targetId false
      if auditOk then
        (.success 200 "User deactivated successfully", db2,
          audit ++ [⟨adminId, .deactivate_user, targetId⟩])
      else
        (.failure 500 "Internal server error", db2, audit)

/-! ### C7: audit append failure handling -/

/-- Counterexample to C7 as stated: with a failing audit store, promote
applies the role change and then reports a 500 failure to the caller —
it does not swallow the audit error and report success. -/
theorem audit_swallow_counterexample :
    promoteUser [⟨"a1", "a@x", UserRole.admin, true⟩,
      ⟨"u1", "u@x", UserRole.user, true⟩] [] false "a1" "u1" =
      (.failure 500 "Internal server error",
        [⟨"a1", "a@x", UserRole.admin, true⟩,
         ⟨"u1", "u@x", UserRole.admin, true⟩], []) := by
  decide

/-- C7 amended: when the audit append fails during promote, the primary
mutation (the saved role change) is kept, never rolled back, but the
request reports a 500 failure rather than success, and no audit entry is
appended. -/
theorem audit_failure_behavior (db : UserStore) (audit : List AuditEntry)
    (adminId targetId : String) (u : User)
    (hfind : findById db targetId = some u)
    (hrole : u.role ≠ UserRole.admin) :
    promoteUser db audit false adminId targetId =
      (.failure 500 "Internal server error",
        setRole db targetId UserRole.admin, audit) := by
  unfold promoteUser
  rw [hfind]
  simp [hrole]

/-- Witness for the amended C7 at the concrete store of the
counterexample. -/
theorem audit_failure_behavior_witness :
    findById [⟨"a1", "a@x", UserRole.admin, true⟩,
      ⟨"u1", "u@x", UserRole.user, true⟩] "u1" =
      some ⟨"u1", "u@x", UserRole.user, true⟩ ∧
    promoteUser [⟨"a1", "a@x", UserRole.admin, true⟩,
      ⟨"u1", "u@x", UserRole.user, true⟩] [] false "a1" "u1" =
      (.failure 500 "Internal server error",
        setRole [⟨"a1", "a@x", UserRole.admin, true⟩,
          ⟨"u1", "u@x", UserRole.user, true⟩] "u1" UserRole.admin, []) :=
  ⟨by decide,
    audit_failure_behavior [⟨"a1", "a@x", UserRole.admin, true⟩,
      ⟨"u1", "u@x", UserRole.user, true⟩] [] "a1" "u1"
      ⟨"u1", "u@x", UserRole.user, true⟩ (by decide) (by decide)⟩

/-! ### C10: no self-demotion, no self-deactivation -/

/-- An id lookup only returns a document carrying that id. -/
theorem findById_id (db : UserStore) (i : String) (u : User)
    (h : findById db i = some u) : u.id = i := by
  have := List.find?_some h
  simpa using this

/-- C10: a demote or deactivate request whose target is the actor is
rejected with a 400 bad-request error; the store and the audit log are
returned unchanged in both cases. -/
theorem no_self_demotion_or_deactivation (db : UserStore)
    (audit : List AuditEntry) (auditOk : Bool) (actorId : String)
    (u : User) (hfind : findById db actorId = some u)
    (hrole : u.role = UserRole.admin) :
    demoteUser db audit auditOk actorId actorId =
      (.failure 400 "You cannot demote yourself", db, audit) ∧
    deactivateUser db audit auditOk actorId actorId =
      (.failure 400 "You cannot deactivate your own account", db, audit) := by
  have hid : u.id = actorId := findById_id db actorId u hfind
  constructor
  · unfold demoteUser
    rw [hfind]
    simp [hrole, hid]
  · unfold deactivateUser
    rw [hfind]
    simp [hid]

/-- Witness for C10 at a concrete one-admin store. -/
theorem no_self_demotion_or_deactivation_witness :
    findById [⟨"a1", "a@x", UserRole.admin, true⟩] "a1" =
      some ⟨"a1", "a@x", UserRole.admin, true⟩ ∧
    demoteUser [⟨"a1", "a@x", UserRole.admin, true⟩] [] true "a1" "a1" =
      (.failure 400 "You cannot demote yourself",
        [⟨"a1", "a@x", UserRole.admin, true⟩], []) :=
  ⟨by decide,
    (no_self_demotion_or_deactivation [⟨"a1", "a@x", UserRole.admin, true⟩]
      [] true "a1" ⟨"a1", "a@x", UserRole.admin, true⟩
      (by decide) (by decide)).1⟩

end DSASite
